import Mathlib

/-!
A verification development for the `snooze` HTTP server (`snooze.c`).

The per-connection pipeline of the C program is embedded shallowly:

* byte buffers (`char` arrays / C strings) are modelled as `List Char`
  (`Bytes`), one `Char` per byte;
* the request-read loop of `main` is modelled as `read_loop` over an
  explicit list of `recv` outcomes (`RecvEvent`);
* `parse_headers`, `parse_snooze_path`, `extract_request_info`,
  `send_http_response` and `handle_request` follow the C functions
  line by line;
* socket writes are modelled by returning the bytes that would be sent
  (`Option Bytes`; `none` means the function sent nothing and went
  straight to `graceful_close`), and the `sleep` call is modelled by
  returning the number of seconds slept.
-/

/-- C byte strings are modelled as lists of characters, one per byte. -/
abbrev Bytes := List Char

/-- `#define DEFAULT_MESSAGE "Hello from snooze!\n"` -/
def DEFAULT_MESSAGE : Bytes := "Hello from snooze!\n".data

/-- `#define MAX_HEADERS_SIZE 1536` -/
def MAX_HEADERS_SIZE : Nat := 1536

/-- `#define MAX_METHOD_SIZE 16` -/
def MAX_METHOD_SIZE : Nat := 16

/-- `#define MAX_PATH_SIZE 128` -/
def MAX_PATH_SIZE : Nat := 128

/-- `#define MAX_AGENT_SIZE 128` -/
def MAX_AGENT_SIZE : Nat := 128

/-- `#define MAX_REQ_SIZE 1024` -/
def MAX_REQ_SIZE : Nat := 1024

/-- The decimal digit character for `m % 10`, as produced by `printf`
style formatting in C. -/
def digitChar (m : Nat) : Char :=
  match m with
  | 0 => '0' | 1 => '1' | 2 => '2' | 3 => '3' | 4 => '4'
  | 5 => '5' | 6 => '6' | 7 => '7' | 8 => '8' | _ => '9'

/-- Fuel-driven construction of the decimal digit string of `n`
(most-significant digit first), prepended to `acc`.  The fuel `n + 1`
used by `natDecimal` always suffices. -/
def natDecimalCore : Nat → Nat → Bytes → Bytes
  | 0, _, acc => acc
  | fuel + 1, n, acc =>
    let d := digitChar (n % 10)
    if n < 10 then d :: acc
    else natDecimalCore fuel (n / 10) (d :: acc)

/-- The decimal representation of a natural number, as produced by
`snprintf` with `%zu` (and `%d` on non-negative values). -/
def natDecimal (n : Nat) : Bytes := natDecimalCore (n + 1) n []

/-- The decimal representation printed by `%d` for a C `int` value. -/
def intDecimal (i : Int) : Bytes :=
  if i < 0 then '-' :: natDecimal (-i).toNat else natDecimal i.toNat

/-- The numeric value denoted by a digit string (used to state that the
rendering `natDecimal` is the genuine decimal representation, and as the
accumulation performed by `atoi`). -/
def decimalVal (s : Bytes) : Nat :=
  s.foldl (fun a c => a * 10 + (c.toNat - 48)) 0

/-- Model of the C library `atoi` on the digits-only, NUL-free strings
that `parse_snooze_path` feeds it.  glibc implements `atoi` as
`(int) strtol(s, NULL, 10)`: the mathematical value is clamped to the
`long` range (here `2^63 - 1`, the input being non-negative), and the
`long` to `int` conversion wraps modulo `2^32` into two's complement
(gcc on x86-64 Linux). -/
def atoi (s : Bytes) : Int :=
  let clamped : Nat := min (decimalVal s) (2 ^ 63 - 1)
  ((clamped : Int) + 2 ^ 31) % 2 ^ 32 - 2 ^ 31

/-- ASCII lower-casing of one byte, as done by `tolower` in the C
locale (used by `strncasecmp`). -/
def asciiLower (c : Char) : Char :=
  if 'A' ≤ c ∧ c ≤ 'Z' then Char.ofNat (c.toNat + 32) else c

/-- Splits a buffer at every occurrence of `\r\n`, mirroring the
`strstr(cur, "\r\n")` line scan of `parse_headers`: the last element is
the trailing text after the final `\r\n` (possibly empty). -/
def splitCRLF : Bytes → List Bytes
  | [] => [[]]
  | [c] => [[c]]
  | a :: b :: rest =>
    if a = '\r' ∧ b = '\n' then [] :: splitCRLF rest
    else
      let s := splitCRLF (b :: rest)
      (a :: s.headD []) :: s.tail

/-- `http_request_t` from `snooze.c` (the `exec_time` field, a wall
clock double used only for logging, is not modelled). -/
structure http_request_t where
  method : Bytes
  path : Bytes
  user_agent : Bytes
  additional_headers : Bytes
  snooze_seconds : Int
deriving DecidableEq, Repr

/-- The mutable state threaded through the `parse_headers` loop: the
three request fields it writes, plus the local `temp_buffer` (the bytes
actually stored) and `json_pos` (the running would-be length returned
by `snprintf`). -/
structure ParseAcc where
  method : Bytes
  path : Bytes
  user_agent : Bytes
  temp : Bytes
  jsonPos : Nat
deriving DecidableEq, Repr

/-- The first-line branch of `parse_headers`: split the request line on
its first two spaces (`memchr`); on success store method and path if
they fit their buffers (`method_len < 16`, `path_len < 128`), else
leave the fields untouched. -/
def parseRequestLine (line : Bytes) (acc : ParseAcc) : ParseAcc :=
  let m := line.takeWhile (fun c => c != ' ')
  let r1 := line.dropWhile (fun c => c != ' ')
  if r1 = [] then acc
  else
    let after1 := r1.tail
    let p := after1.takeWhile (fun c => c != ' ')
    if after1.dropWhile (fun c => c != ' ') = [] then acc
    else
      { acc with
        method := if m.length < 16 then m else acc.method
        path := if p.length < 128 then p else acc.path }

/-- The header-line branch of `parse_headers`: split on the first `:`
(`memchr`), skip leading spaces and tabs of the value, store a
`User-Agent` value if it fits (`value_len < 128`), and append any other
header to the bounded JSON `temp_buffer` exactly as the C code does
(`temp_buffer[json_pos++] = ','` under its guard, then `snprintf`,
which stores at most `size - 1` bytes but reports the full would-be
length).  The returned flag records whether the JSON-append branch ran,
which is when the C loop checks its `json_pos >= 2048 - 100` break. -/
def parseHeaderLine (line : Bytes) (acc : ParseAcc) : ParseAcc × Bool :=
  let name := line.takeWhile (fun c => c != ':')
  let r1 := line.dropWhile (fun c => c != ':')
  if r1 = [] then (acc, false)
  else
    let value := r1.tail.dropWhile (fun c => c == ' ' || c == '\t')
    if name.length = 10 ∧ name.map asciiLower = "user-agent".data then
      ({ acc with
         user_agent := if value.length < 128 then value else acc.user_agent },
       false)
    else
      let pos1 := if 0 < acc.jsonPos ∧ acc.jsonPos < 2047 then acc.jsonPos + 1 else acc.jsonPos
      let temp1 := if 0 < acc.jsonPos ∧ acc.jsonPos < 2047 then acc.temp ++ [','] else acc.temp
      let chunk := '"' :: (name ++ ('"' :: ':' :: '"' :: (value ++ ['"'])))
      ({ acc with
         temp := temp1 ++ chunk.take (2048 - pos1 - 1)
         jsonPos := pos1 + chunk.length },
       true)

/-- The `while (cur < end)` loop of `parse_headers`, iterating over the
`\r\n`-separated lines: an empty line (header terminator, or the loop
guard `cur < end` failing) stops the scan; the first line is parsed as
the request line; later lines as headers, stopping when the JSON buffer
high-water check `json_pos >= sizeof(temp_buffer) - 100` fires after an
append. -/
def processLines : List Bytes → Bool → ParseAcc → ParseAcc
  | [], _, acc => acc
  | line :: rest, isFirst, acc =>
    if line = [] then acc
    else if isFirst then processLines rest false (parseRequestLine line acc)
    else
      let r := parseHeaderLine line acc
      if r.2 = true ∧ 2048 - 100 ≤ r.1.jsonPos then r.1
      else processLines rest false r.1

/-- `parse_headers` from `snooze.c`: scan the NUL-terminated request
buffer (`end = reqbuf + strlen(reqbuf)`) line by line, then apply the
defaults `GET` / `/` / `unknown` to any still-empty field and copy at
most `MAX_HEADERS_SIZE - 1` bytes of the JSON temp buffer into
`additional_headers` (`strncpy`). -/
def parse_headers (reqbuf : Bytes) (req : http_request_t) : http_request_t :=
  let buf := reqbuf.takeWhile (fun c => c != '\x00')
  let acc := processLines (splitCRLF buf) true
    { method := req.method, path := req.path, user_agent := req.user_agent,
      temp := [], jsonPos := 0 }
  { req with
    method := if acc.method = [] then "GET".data else acc.method
    path := if acc.path = [] then "/".data else acc.path
    user_agent := if acc.user_agent = [] then "unknown".data else acc.user_agent
    additional_headers := acc.temp.take (MAX_HEADERS_SIZE - 1) }

/-- `parse_snooze_path` from `snooze.c`.  `strncmp(path, "/snooze/", 8)`
succeeds exactly when the first 8 bytes of `path` are `/snooze/`; the
suffix must be non-empty and all `isdigit`, in which case `*timesec`
receives `atoi(numstr)` and the function returns 1 (`true`); otherwise
`*timesec` is left unchanged and it returns 0 (`false`). -/
def parse_snooze_path (path : Bytes) (timesec : Int) : Int × Bool :=
  if path.take 8 = "/snooze/".data then
    let numstr := path.drop 8
    if numstr = [] then (timesec, false)
    else if numstr.all Char.isDigit then (atoi numstr, true)
    else (timesec, false)
  else (timesec, false)

/-- `extract_request_info` from `snooze.c`: zero the request struct
(`memset`, plus the explicit `snooze_seconds = 0`), run
`parse_headers`, then let `parse_snooze_path` update `snooze_seconds`
through its out-parameter. -/
def extract_request_info (reqbuf : Bytes) : http_request_t :=
  let req0 : http_request_t :=
    { method := [], path := [], user_agent := [], additional_headers := [],
      snooze_seconds := 0 }
  let req1 := parse_headers reqbuf req0
  { req1 with
    snooze_seconds := (parse_snooze_path req1.path req1.snooze_seconds).1 }

/-- The fixed text that `send_http_response` formats before the
`Content-Length` value (`%zu`). -/
def RESPONSE_HEADER_PRE : Bytes :=
  "HTTP/1.1 200 OK\r\nServer: snooze\r\nContent-Type: text/html; charset=utf-8\r\nContent-Length: ".data

/-- The fixed text that `send_http_response` formats after the
`Content-Length` value: the header's final CRLF, the `Connection`
header, and the blank line ending the header block. -/
def RESPONSE_HEADER_POST : Bytes := "\r\nConnection: close\r\n\r\n".data

/-- `send_http_response` from `snooze.c`, modelled as the bytes pushed
through `send_all` (`none` when nothing is sent).  `strlen(message)`
stops at the first NUL; the header is formatted by `snprintf` into a
256-byte stack buffer and the function aborts to `graceful_close`
without sending anything if the would-be length reaches 256; otherwise
it sends the header then the body and closes gracefully. -/
def send_http_response (message : Bytes) : Option Bytes :=
  let body := message.takeWhile (fun c => c != '\x00')
  let header := RESPONSE_HEADER_PRE ++ natDecimal body.length ++ RESPONSE_HEADER_POST
  if 256 ≤ header.length then none
  else some (header ++ body)

/-- `handle_request` from `snooze.c`, modelled as the pair of the
seconds slept (`sleep(req->snooze_seconds)` when the parsed value is
positive, otherwise no sleep) and the bytes sent by
`send_http_response`.  The snooze confirmation body is formatted by
`snprintf` into a 128-byte buffer (`%d`), hence the `take 127`. -/
def handle_request (req : http_request_t) (default_message : Bytes) : Nat × Option Bytes :=
  if req.snooze_seconds > 0 then
    let msg := ("Snoozed for ".data ++ intDecimal req.snooze_seconds ++ " seconds!\n".data).take 127
    (req.snooze_seconds.toNat, send_http_response msg)
  else
    (0, send_http_response default_message)

/-- One outcome of a `recv` call in the request-read loop of `main`:
data delivered by the kernel, a zero return (peer closed), an
interrupted call (`errno == EINTR`), or any other error. -/
inductive RecvEvent where
  | data (bytes : Bytes)
  | closed
  | eintr
  | err
deriving DecidableEq, Repr

/-- Does the buffer start with the pattern given second? -/
def listStartsWith : Bytes → Bytes → Bool
  | _, [] => true
  | [], _ :: _ => false
  | a :: as, b :: bs => a == b && listStartsWith as bs

/-- `strstr`-style containment: does the (already NUL-truncated) buffer
contain the pattern as a contiguous run? -/
def containsSeq (pat : Bytes) : Bytes → Bool
  | [] => listStartsWith [] pat
  | c :: rest => listStartsWith (c :: rest) pat || containsSeq pat rest

/-- The request-read loop of `main`, driven by a list of `recv`
outcomes.  Each `recv` is offered at most `sizeof(reqbuf) - 1 - total`
bytes; the loop continues only while `recv` returns a positive count,
and stops as soon as the NUL-terminated buffer contains `\r\n\r\n`
(`strstr`) or the buffer is full.  Returns the accumulated buffer and
the number of `recv` calls consumed. -/
def read_loop : List RecvEvent → Bytes → Bytes × Nat
  | [], buf => (buf, 0)
  | ev :: rest, buf =>
    match ev with
    | RecvEvent.closed => (buf, 1)
    | RecvEvent.eintr => (buf, 1)
    | RecvEvent.err => (buf, 1)
    | RecvEvent.data bytes =>
      let chunk := bytes.take (MAX_REQ_SIZE - 1 - buf.length)
      if chunk = [] then (buf, 1)
      else
        let buf1 := buf ++ chunk
        if containsSeq "\r\n\r\n".data (buf1.takeWhile (fun c => c != '\x00')) then (buf1, 1)
        else if MAX_REQ_SIZE - 1 ≤ buf1.length then (buf1, 1)
        else
          let r := read_loop rest buf1
          (r.1, r.2 + 1)

/-- One accepted connection as handled by the body of the accept loop
in `main`: read the request, parse it, handle it.  Returns the parsed
request, the seconds slept, and the response bytes written (if any). -/
def handle_connection (events : List RecvEvent) (default_message : Bytes) :
    http_request_t × Nat × Option Bytes :=
  let buf := (read_loop events []).1
  let req := extract_request_info buf
  let hr := handle_request req default_message
  (req, hr.1, hr.2)

/-- Modelled from the spec and claim wording: a path matches the snooze
route pattern when it is the literal `/snooze/` followed by one or more
ASCII digits and nothing else. -/
def matchesSnoozePattern (path : Bytes) : Bool :=
  path.take 8 == "/snooze/".data && !(path.drop 8).isEmpty
    && (path.drop 8).all Char.isDigit

/-! ## Helper lemmas -/

theorem takeWhile_all {p : Char → Bool} : ∀ {l : Bytes}, (∀ c ∈ l, p c = true) → l.takeWhile p = l
  | [], _ => rfl
  | c :: l, h => by
      rw [List.takeWhile_cons_of_pos (h c (by simp))]
      exact congrArg (c :: ·) (takeWhile_all fun x hx => h x (by simp [hx]))

theorem dropWhile_all {p : Char → Bool} : ∀ {l : Bytes}, (∀ c ∈ l, p c = true) → l.dropWhile p = []
  | [], _ => rfl
  | c :: l, h => by
      rw [List.dropWhile_cons_of_pos (h c (by simp))]
      exact dropWhile_all fun x hx => h x (by simp [hx])

theorem takeWhile_stop {p : Char → Bool} (x : Char) (hx : p x = false) :
    ∀ (a b c : Bytes), (a ++ x :: b).takeWhile p = (a ++ x :: c).takeWhile p
  | [], b, c => by simp [List.takeWhile_cons, hx]
  | d :: a, b, c => by
      simp only [List.cons_append, List.takeWhile_cons]
      cases p d <;> simp [takeWhile_stop x hx a b c]

theorem digitChar_isDigit (m : Nat) : (digitChar m).isDigit = true := by
  unfold digitChar
  split <;> decide

theorem digitChar_toNat (m : Nat) (h : m < 10) : (digitChar m).toNat = 48 + m := by
  interval_cases m <;> decide

theorem natDecimalCore_fuel : ∀ (f g n : Nat) (acc : Bytes), n < f → n < g →
    natDecimalCore f n acc = natDecimalCore g n acc
  | f + 1, g + 1, n, acc, hf, hg => by
      simp only [natDecimalCore]
      by_cases h : n < 10
      · simp [h]
      · have hdiv : n / 10 < n := Nat.div_lt_self (by omega) (by omega)
        simp only [if_neg h]
        exact natDecimalCore_fuel f g (n / 10) _ (by omega) (by omega)
  | 0, _, n, _, hf, _ => absurd hf (by omega)
  | _ + 1, 0, n, _, _, hg => absurd hg (by omega)

theorem natDecimalCore_acc : ∀ (f n : Nat) (acc : Bytes), n < f →
    natDecimalCore f n acc = natDecimalCore f n [] ++ acc
  | 0, n, acc, hf => absurd hf (by omega)
  | f + 1, n, acc, hf => by
      simp only [natDecimalCore]
      by_cases h : n < 10
      · simp [h]
      · have hdiv : n / 10 < n := Nat.div_lt_self (by omega) (by omega)
        simp only [if_neg h]
        rw [natDecimalCore_acc f (n / 10) _ (by omega),
            natDecimalCore_acc f (n / 10) [digitChar (n % 10)] (by omega)]
        simp

theorem natDecimal_small {n : Nat} (h : n < 10) : natDecimal n = [digitChar n] := by
  simp [natDecimal, natDecimalCore, h, Nat.mod_eq_of_lt h]

theorem natDecimal_step {n : Nat} (h : 10 ≤ n) :
    natDecimal n = natDecimal (n / 10) ++ [digitChar (n % 10)] := by
  have hdiv : n / 10 < n := Nat.div_lt_self (by omega) (by omega)
  rw [natDecimal, natDecimalCore]
  simp only [if_neg (by omega : ¬ n < 10)]
  rw [natDecimalCore_acc n (n / 10) _ (by omega),
      natDecimalCore_fuel n (n / 10 + 1) (n / 10) [] (by omega) (by omega)]
  rfl

theorem natDecimal_digits (n : Nat) : ∀ c ∈ natDecimal n, c.isDigit = true := by
  induction n using Nat.strong_induction_on with
  | _ n ih =>
    by_cases h : n < 10
    · rw [natDecimal_small h]
      intro c hc
      rw [List.mem_singleton] at hc
      exact hc ▸ digitChar_isDigit n
    · rw [natDecimal_step (by omega)]
      intro c hc
      rcases List.mem_append.1 hc with h1 | h2
      · exact ih (n / 10) (Nat.div_lt_self (by omega) (by omega)) c h1
      · rw [List.mem_singleton] at h2
        exact h2 ▸ digitChar_isDigit _

theorem natDecimal_ne_nil (n : Nat) : natDecimal n ≠ [] := by
  by_cases h : n < 10
  · rw [natDecimal_small h]; simp
  · rw [natDecimal_step (by omega)]; simp

theorem natDecimal_length_le : ∀ (k : Nat) {n : Nat}, 0 < k → n < 10 ^ k →
    (natDecimal n).length ≤ k := by
  intro k n
  induction n using Nat.strong_induction_on generalizing k with
  | _ n ih =>
    intro hk hn
    by_cases h : n < 10
    · rw [natDecimal_small h]
      simpa using hk
    · have hk2 : 2 ≤ k := by
        by_contra hlt
        have : k = 1 := by omega
        subst this
        simp at hn
        omega
      rw [natDecimal_step (by omega)]
      have hdiv : n / 10 < 10 ^ (k - 1) := by
        rw [Nat.div_lt_iff_lt_mul (by omega)]
        calc n < 10 ^ k := hn
        _ = 10 ^ (k - 1) * 10 := by
              rw [← Nat.pow_succ]
              congr 1
              omega
      have := ih (n / 10) (Nat.div_lt_self (by omega) (by omega)) (k - 1) (by omega) hdiv
      simp only [List.length_append, List.length_singleton]
      omega

theorem decimalVal_append_singleton (a : Bytes) (c : Char) :
    decimalVal (a ++ [c]) = decimalVal a * 10 + (c.toNat - 48) := by
  simp [decimalVal, List.foldl_append]

theorem decimalVal_natDecimal (n : Nat) : decimalVal (natDecimal n) = n := by
  induction n using Nat.strong_induction_on with
  | _ n ih =>
    by_cases h : n < 10
    · rw [natDecimal_small h]
      simp only [decimalVal, List.foldl_cons, List.foldl_nil]
      rw [digitChar_toNat n h]
      omega
    · rw [natDecimal_step (by omega), decimalVal_append_singleton,
          ih (n / 10) (Nat.div_lt_self (by omega) (by omega)),
          digitChar_toNat (n % 10) (by omega)]
      omega

theorem atoi_natDecimal {N : Nat} (h : N < 2 ^ 31) : atoi (natDecimal N) = N := by
  simp only [atoi, decimalVal_natDecimal]
  have hmin : min N (2 ^ 63 - 1) = N := by
    apply Nat.min_eq_left
    have : (2 : Nat) ^ 31 ≤ 2 ^ 63 - 1 := by norm_num
    omega
  rw [hmin]
  have hN : (N : Int) < 2 ^ 31 := by exact_mod_cast h
  omega

theorem splitCRLF_append : ∀ (l : Bytes), (∀ c ∈ l, c ≠ '\r') → ∀ (rest : Bytes),
    splitCRLF (l ++ '\r' :: '\n' :: rest) = l :: splitCRLF rest
  | [], _, rest => by
      simp only [List.nil_append]
      rw [splitCRLF, if_pos ⟨rfl, rfl⟩]
  | [c], h, rest => by
      have hc : ¬ (c = '\r' ∧ '\r' = '\n') := by
        rintro ⟨h1, -⟩
        exact h c (by simp) h1
      simp only [List.cons_append, List.nil_append]
      rw [splitCRLF, if_neg hc, splitCRLF, if_pos ⟨rfl, rfl⟩]
      simp
  | c :: d :: l, h, rest => by
      have hc : ¬ (c = '\r' ∧ d = '\n') := by
        rintro ⟨h1, -⟩
        exact h c (by simp) h1
      have ih := splitCRLF_append (d :: l) (fun x hx => h x (List.mem_cons_of_mem c hx)) rest
      simp only [List.cons_append] at ih ⊢
      rw [splitCRLF, if_neg hc, ih]
      simp

theorem splitCRLF_crlf (rest : Bytes) : splitCRLF ('\r' :: '\n' :: rest) = [] :: splitCRLF rest := by
  rw [splitCRLF, if_pos ⟨rfl, rfl⟩]

theorem send_http_response_eq {msg : Bytes} (h0 : '\x00' ∉ msg) (h1 : msg.length ≤ 10000) :
    send_http_response msg
      = some (RESPONSE_HEADER_PRE ++ natDecimal msg.length ++ RESPONSE_HEADER_POST ++ msg) := by
  have hbody : msg.takeWhile (fun c => c != '\x00') = msg :=
    takeWhile_all fun c hc => by
      simp only [bne_iff_ne, ne_eq, decide_eq_true_eq]
      exact fun he => h0 (he ▸ hc)
  have hnd : (natDecimal msg.length).length ≤ 5 :=
    natDecimal_length_le 5 (by omega) (by omega)
  have hpre : RESPONSE_HEADER_PRE.length = 89 := by decide
  have hpost : RESPONSE_HEADER_POST.length = 23 := by decide
  simp only [send_http_response, hbody]
  rw [if_neg (by simp [List.length_append, hpre, hpost]; omega)]

theorem digit_ne {c x : Char} (h : c.isDigit = true) (hx : x.isDigit = false) : c ≠ x := by
  intro he
  rw [he, hx] at h
  exact Bool.false_ne_true h

theorem parse_headers_snooze (b : Bytes) (r : http_request_t) :
    (parse_headers b r).snooze_seconds = r.snooze_seconds := by
  simp [parse_headers]

theorem extract_snooze_req (D : Bytes) (hD : ∀ c ∈ D, c.isDigit = true)
    (hne : D ≠ []) (hlen : D.length ≤ 119) :
    extract_request_info ("GET /snooze/".data ++ D ++ " HTTP/1.1\r\n\r\n".data)
      = { method := "GET".data, path := "/snooze/".data ++ D,
          user_agent := "unknown".data, additional_headers := [],
          snooze_seconds := atoi D } := by
  have hDsp : ∀ c ∈ D, (c != ' ') = true := fun c hc => by
    simp only [bne_iff_ne, ne_eq]
    exact digit_ne (hD c hc) (by decide)
  have hDnul : ∀ c ∈ D, (c != '\x00') = true := fun c hc => by
    simp only [bne_iff_ne, ne_eq]
    exact digit_ne (hD c hc) (by decide)
  have hDcr : ∀ c ∈ D, c ≠ '\r' := fun c hc => digit_ne (hD c hc) (by decide)
  have hBassoc : "GET /snooze/".data ++ D ++ " HTTP/1.1\r\n\r\n".data
      = ("GET /snooze/".data ++ D ++ " HTTP/1.1".data) ++ ('\r' :: '\n' :: '\r' :: '\n' :: []) := by
    rw [show " HTTP/1.1\r\n\r\n".data
        = " HTTP/1.1".data ++ ('\r' :: '\n' :: '\r' :: '\n' :: []) from by decide]
    simp [List.append_assoc]
  have hnoNul : ∀ c ∈ "GET /snooze/".data ++ D ++ " HTTP/1.1\r\n\r\n".data, (c != '\x00') = true := by
    intro c hc
    simp only [List.mem_append] at hc
    rcases hc with (h1 | h2) | h3
    · exact (by decide : ∀ x ∈ "GET /snooze/".data, (x != '\x00') = true) c h1
    · exact hDnul c h2
    · exact (by decide : ∀ x ∈ " HTTP/1.1\r\n\r\n".data, (x != '\x00') = true) c h3
  have hnoCR : ∀ c ∈ "GET /snooze/".data ++ D ++ " HTTP/1.1".data, c ≠ '\r' := by
    intro c hc
    simp only [List.mem_append] at hc
    rcases hc with (h1 | h2) | h3
    · exact (by decide : ∀ x ∈ "GET /snooze/".data, x ≠ '\r') c h1
    · exact hDcr c h2
    · exact (by decide : ∀ x ∈ " HTTP/1.1".data, x ≠ '\r') c h3
  have hsp : splitCRLF ("GET /snooze/".data ++ D ++ " HTTP/1.1\r\n\r\n".data)
      = ("GET /snooze/".data ++ D ++ " HTTP/1.1".data) :: [[], []] := by
    rw [hBassoc, splitCRLF_append _ hnoCR,
        show splitCRLF ('\r' :: '\n' :: []) = [[], []] from by decide]
  have hline1ne : "GET /snooze/".data ++ D ++ " HTTP/1.1".data ≠ [] := by
    intro h
    simp only [List.append_eq_nil] at h
    exact absurd h.1.1 (by decide)
  have hm : ("GET /snooze/".data ++ D ++ " HTTP/1.1".data).takeWhile (fun c => c != ' ')
      = "GET".data := by
    rw [List.append_assoc, List.takeWhile_append, if_neg (by decide)]
    decide
  have hmd : ("GET /snooze/".data ++ D ++ " HTTP/1.1".data).dropWhile (fun c => c != ' ')
      = ' ' :: ("/snooze/".data ++ (D ++ " HTTP/1.1".data)) := by
    rw [List.append_assoc, List.dropWhile_append, if_neg (by decide),
        show "GET /snooze/".data.dropWhile (fun c => c != ' ') = ' ' :: "/snooze/".data from by decide]
    simp
  have hp2 : ("/snooze/".data ++ (D ++ " HTTP/1.1".data)).takeWhile (fun c => c != ' ')
      = "/snooze/".data ++ D := by
    rw [List.takeWhile_append_of_pos (by decide), List.takeWhile_append_of_pos hDsp,
        show " HTTP/1.1".data.takeWhile (fun c => c != ' ') = [] from by decide]
    simp
  have hp2d : ("/snooze/".data ++ (D ++ " HTTP/1.1".data)).dropWhile (fun c => c != ' ')
      = ' ' :: "HTTP/1.1".data := by
    rw [List.dropWhile_append_of_pos (by decide), List.dropWhile_append_of_pos hDsp]
    decide
  have hlp : ("/snooze/".data ++ D).length < 128 := by
    rw [List.length_append]
    have h8 : ("/snooze/".data).length = 8 := by decide
    omega
  have hprl : parseRequestLine ("GET /snooze/".data ++ D ++ " HTTP/1.1".data)
      { method := [], path := [], user_agent := [], temp := [], jsonPos := 0 }
      = { method := "GET".data, path := "/snooze/".data ++ D, user_agent := [],
          temp := [], jsonPos := 0 } := by
    simp only [parseRequestLine, hm, hmd]
    rw [if_neg (List.cons_ne_nil _ _)]
    simp only [List.tail_cons, hp2, hp2d]
    rw [if_neg (List.cons_ne_nil _ _), if_pos (by decide), if_pos hlp]
  have hacc : processLines
      (splitCRLF ("GET /snooze/".data ++ D ++ " HTTP/1.1\r\n\r\n".data)) true
      { method := [], path := [], user_agent := [], temp := [], jsonPos := 0 }
      = { method := "GET".data, path := "/snooze/".data ++ D, user_agent := [],
          temp := [], jsonPos := 0 } := by
    rw [hsp]
    simp only [processLines, hprl]
    rw [if_neg hline1ne]
    simp
  have hpne : "/snooze/".data ++ D ≠ [] := by
    intro h
    rw [List.append_eq_nil] at h
    exact absurd h.1 (by decide)
  have hph : parse_headers ("GET /snooze/".data ++ D ++ " HTTP/1.1\r\n\r\n".data)
      { method := [], path := [], user_agent := [], additional_headers := [],
        snooze_seconds := 0 }
      = { method := "GET".data, path := "/snooze/".data ++ D,
          user_agent := "unknown".data, additional_headers := [],
          snooze_seconds := 0 } := by
    simp only [parse_headers, takeWhile_all hnoNul, hacc]
    rw [if_neg (by decide), if_neg hpne]
    simp [MAX_HEADERS_SIZE]
  have hps : parse_snooze_path ("/snooze/".data ++ D) 0 = (atoi D, true) := by
    simp only [parse_snooze_path]
    rw [List.take_left' (by decide), if_pos rfl, List.drop_left' (by decide),
        if_neg hne, if_pos (by rw [List.all_eq_true]; exact hD)]
  simp only [extract_request_info, hph, hps]

theorem intDecimal_natCast (n : Nat) : intDecimal (n : Int) = natDecimal n := by
  simp [intDecimal]

theorem snooze_msg_no_nul (N : Nat) :
    '\x00' ∉ "Snoozed for ".data ++ natDecimal N ++ " seconds!\n".data := by
  intro hmem
  simp only [List.mem_append] at hmem
  rcases hmem with (h1 | h2) | h3
  · exact absurd h1 (by decide)
  · exact absurd (natDecimal_digits N '\x00' h2) (by decide)
  · exact absurd h3 (by decide)

theorem snooze_msg_len (N : Nat) (h : (natDecimal N).length ≤ 10) :
    ("Snoozed for ".data ++ natDecimal N ++ " seconds!\n".data).length ≤ 32 := by
  rw [List.length_append, List.length_append]
  have h1 : ("Snoozed for ".data).length = 12 := by decide
  have h2 : (" seconds!\n".data).length = 10 := by decide
  omega

/-- C2 (amended): for every request `GET /snooze/<N> HTTP/1.1` with
`N` a positive integer below `2^31` (the C `int` range), the parsed
`snooze_seconds` is exactly `N`, the handler sleeps `N` seconds before
responding, and the response body is `Snoozed for <N> seconds!\n`.
The claim as frozen, quantifying over all positive digit strings, fails
for values from `2^31` up (see the counterexample): `atoi` wraps them
to non-positive `int` values, so no delay happens and the default body
is sent. -/
theorem snooze_delay_and_body (N : Nat) (d : Bytes) (h1 : 0 < N) (h2 : N < 2 ^ 31) :
    (extract_request_info
        ("GET /snooze/".data ++ natDecimal N ++ " HTTP/1.1\r\n\r\n".data)).snooze_seconds = (N : Int)
    ∧ handle_request
        (extract_request_info ("GET /snooze/".data ++ natDecimal N ++ " HTTP/1.1\r\n\r\n".data)) d
      = (N, some (RESPONSE_HEADER_PRE
            ++ natDecimal ("Snoozed for ".data ++ natDecimal N ++ " seconds!\n".data).length
            ++ RESPONSE_HEADER_POST
            ++ ("Snoozed for ".data ++ natDecimal N ++ " seconds!\n".data))) := by
  have hlen10 : (natDecimal N).length ≤ 10 :=
    natDecimal_length_le 10 (by norm_num) (lt_trans h2 (by norm_num))
  have hext := extract_snooze_req (natDecimal N) (natDecimal_digits N)
    (natDecimal_ne_nil N) (by omega)
  rw [atoi_natDecimal h2] at hext
  have hpos : ((N : Int) > 0) := by exact_mod_cast h1
  constructor
  · rw [hext]
  · rw [hext]
    simp only [handle_request]
    rw [if_pos hpos, intDecimal_natCast,
        List.take_of_length_le (le_trans (snooze_msg_len N hlen10) (by norm_num)),
        send_http_response_eq (snooze_msg_no_nul N)
          (le_trans (snooze_msg_len N hlen10) (by norm_num))]
    simp

/-- Witness for C2's theorem at `N = 5`: a five-second snooze request
sleeps 5 seconds and gets the `Snoozed for 5 seconds!\n` body. -/
theorem snooze_delay_and_body_witness :
    (extract_request_info
        ("GET /snooze/".data ++ natDecimal 5 ++ " HTTP/1.1\r\n\r\n".data)).snooze_seconds
      = ((5 : Nat) : Int)
    ∧ handle_request
        (extract_request_info ("GET /snooze/".data ++ natDecimal 5 ++ " HTTP/1.1\r\n\r\n".data))
        DEFAULT_MESSAGE
      = (5, some (RESPONSE_HEADER_PRE
            ++ natDecimal ("Snoozed for ".data ++ natDecimal 5 ++ " seconds!\n".data).length
            ++ RESPONSE_HEADER_POST
            ++ ("Snoozed for ".data ++ natDecimal 5 ++ " seconds!\n".data))) :=
  snooze_delay_and_body 5 DEFAULT_MESSAGE (by decide) (by decide)

/-- Counterexample to C2 as frozen: for the positive digits-only value
`N = 2147483648` (`2^31`), `atoi` wraps to `-2147483648`, so the
handler sleeps 0 seconds (not at least `N`) and sends the default body
(the word `Snoozed` appears nowhere in the response). -/
theorem snooze_overflow_counterexample :
    (extract_request_info "GET /snooze/2147483648 HTTP/1.1\r\n\r\n".data).snooze_seconds
      = -2147483648
    ∧ handle_request (extract_request_info "GET /snooze/2147483648 HTTP/1.1\r\n\r\n".data)
        DEFAULT_MESSAGE
      = (0, some (RESPONSE_HEADER_PRE ++ natDecimal 19 ++ RESPONSE_HEADER_POST ++ DEFAULT_MESSAGE))
    ∧ containsSeq "Snoozed".data
        (RESPONSE_HEADER_PRE ++ natDecimal 19 ++ RESPONSE_HEADER_POST ++ DEFAULT_MESSAGE) = false := by
  decide

/-- Counterexample to C1 as frozen: for `GET /snooze/0`, the route
resolver does recognize the snooze route (`parse_snooze_path` returns 1
with `timesec = 0`), but `handle_request` only builds the snooze body
when `snooze_seconds > 0`, so the response carries the default message
and the string `Snoozed for 0 seconds!\n` appears nowhere in it. -/
theorem snooze_zero_counterexample :
    parse_snooze_path "/snooze/0".data 0 = (0, true)
    ∧ handle_request (extract_request_info "GET /snooze/0 HTTP/1.1\r\n\r\n".data) DEFAULT_MESSAGE
      = (0, some (RESPONSE_HEADER_PRE ++ natDecimal 19 ++ RESPONSE_HEADER_POST ++ DEFAULT_MESSAGE))
    ∧ containsSeq "Snoozed for 0 seconds!\n".data
        (RESPONSE_HEADER_PRE ++ natDecimal 19 ++ RESPONSE_HEADER_POST ++ DEFAULT_MESSAGE) = false := by
  decide

/-- C1 (amended): `/snooze/0` is recognized as a snooze route and
resolves `snooze_seconds` to 0, the handler applies zero delay, and the
response body is the configured default message (not the snooze
confirmation). -/
theorem snooze_zero_default_body (d : Bytes) (h0 : '\x00' ∉ d) (h1 : d.length ≤ 10000) :
    (parse_snooze_path "/snooze/0".data 0).2 = true
    ∧ (extract_request_info "GET /snooze/0 HTTP/1.1\r\n\r\n".data).snooze_seconds = 0
    ∧ handle_request (extract_request_info "GET /snooze/0 HTTP/1.1\r\n\r\n".data) d
      = (0, some (RESPONSE_HEADER_PRE ++ natDecimal d.length ++ RESPONSE_HEADER_POST ++ d)) := by
  refine ⟨by decide, by decide, ?_⟩
  rw [show extract_request_info "GET /snooze/0 HTTP/1.1\r\n\r\n".data
      = { method := "GET".data, path := "/snooze/0".data, user_agent := "unknown".data,
          additional_headers := [], snooze_seconds := 0 } from by decide]
  simp only [handle_request]
  rw [if_neg (by decide), send_http_response_eq h0 h1]

/-- Witness for C1's amended theorem at the default configuration. -/
theorem snooze_zero_default_body_witness :
    (parse_snooze_path "/snooze/0".data 0).2 = true
    ∧ (extract_request_info "GET /snooze/0 HTTP/1.1\r\n\r\n".data).snooze_seconds = 0
    ∧ handle_request (extract_request_info "GET /snooze/0 HTTP/1.1\r\n\r\n".data) DEFAULT_MESSAGE
      = (0, some (RESPONSE_HEADER_PRE ++ natDecimal DEFAULT_MESSAGE.length
            ++ RESPONSE_HEADER_POST ++ DEFAULT_MESSAGE)) :=
  snooze_zero_default_body DEFAULT_MESSAGE (by decide) (by decide)

theorem parse_snooze_path_no_match {path : Bytes}
    (h : matchesSnoozePattern path = false) (t : Int) :
    parse_snooze_path path t = (t, false) := by
  simp only [parse_snooze_path]
  split_ifs with hA hB hC
  · rfl
  · exfalso
    have hA' : (path.take 8 == "/snooze/".data) = true := by
      rw [hA]
      exact beq_self_eq_true _
    have hB' : (path.drop 8).isEmpty = false := by
      cases h8 : path.drop 8 with
      | nil => exact absurd h8 hB
      | cons a l => rfl
    unfold matchesSnoozePattern at h
    rw [hA', hB', hC] at h
    simp at h
  · rfl
  · rfl

theorem extract_snooze_no_match {reqbuf : Bytes}
    (h : matchesSnoozePattern (extract_request_info reqbuf).path = false) :
    (extract_request_info reqbuf).snooze_seconds = 0 := by
  simp only [extract_request_info] at h ⊢
  rw [parse_headers_snooze]
  rw [parse_snooze_path_no_match h]

/-- C3: for every request whose parsed path does not match the
`/snooze/` digits-only pattern — including `/snooze/` (empty suffix),
`/snooze/12a`, a negative suffix such as `-3`, and `/snooze` (no
trailing slash) — `snooze_seconds` resolves to 0, the handler applies
no delay, and the response body is the configured default message
verbatim, regardless of the headers sent. -/
theorem non_snooze_default_route (reqbuf d : Bytes)
    (h0 : '\x00' ∉ d) (h1 : d.length ≤ 10000)
    (h2 : matchesSnoozePattern (extract_request_info reqbuf).path = false) :
    (extract_request_info reqbuf).snooze_seconds = 0
    ∧ handle_request (extract_request_info reqbuf) d
      = (0, some (RESPONSE_HEADER_PRE ++ natDecimal d.length ++ RESPONSE_HEADER_POST ++ d)) := by
  have hz := extract_snooze_no_match h2
  refine ⟨hz, ?_⟩
  simp only [handle_request]
  rw [if_neg (by rw [hz]; decide), send_http_response_eq h0 h1]

/-- Witness for C3 on the path `/snooze/12a` with the default
configuration. -/
theorem non_snooze_default_route_witness :
    (extract_request_info "GET /snooze/12a HTTP/1.1\r\n\r\n".data).snooze_seconds = 0
    ∧ handle_request (extract_request_info "GET /snooze/12a HTTP/1.1\r\n\r\n".data) DEFAULT_MESSAGE
      = (0, some (RESPONSE_HEADER_PRE ++ natDecimal DEFAULT_MESSAGE.length
            ++ RESPONSE_HEADER_POST ++ DEFAULT_MESSAGE)) :=
  non_snooze_default_route _ DEFAULT_MESSAGE (by decide) (by decide) (by decide)

/-- C4: for every body (NUL-free, as any C string body is, of length up
to 10000 bytes) the response builder sends exactly one byte string: it
starts with the status line `HTTP/1.1 200 OK`, contains a
`Content-Length` header whose decimal value is the exact byte length of
the body, contains a `Connection: close` header, and ends with a blank
line followed by the body bytes; the status is always 200 since every
response produced has this shape. -/
theorem response_framing (msg : Bytes) (h0 : '\x00' ∉ msg) (h1 : msg.length ≤ 10000) :
    send_http_response msg
      = some (RESPONSE_HEADER_PRE ++ natDecimal msg.length ++ RESPONSE_HEADER_POST ++ msg)
    ∧ "HTTP/1.1 200 OK\r\n".data
        <+: RESPONSE_HEADER_PRE ++ natDecimal msg.length ++ RESPONSE_HEADER_POST ++ msg
    ∧ ("Content-Length: ".data ++ natDecimal msg.length ++ "\r\n".data)
        <:+: RESPONSE_HEADER_PRE ++ natDecimal msg.length ++ RESPONSE_HEADER_POST ++ msg
    ∧ "Connection: close\r\n".data
        <:+: RESPONSE_HEADER_PRE ++ natDecimal msg.length ++ RESPONSE_HEADER_POST ++ msg
    ∧ RESPONSE_HEADER_PRE ++ natDecimal msg.length ++ RESPONSE_HEADER_POST ++ msg
        = (RESPONSE_HEADER_PRE ++ natDecimal msg.length ++ "\r\nConnection: close\r\n".data)
          ++ "\r\n".data ++ msg
    ∧ decimalVal (natDecimal msg.length) = msg.length := by
  have hpre : RESPONSE_HEADER_PRE
      = "HTTP/1.1 200 OK\r\n".data
        ++ "Server: snooze\r\nContent-Type: text/html; charset=utf-8\r\nContent-Length: ".data := by
    decide
  have hpre2 : RESPONSE_HEADER_PRE
      = "HTTP/1.1 200 OK\r\nServer: snooze\r\nContent-Type: text/html; charset=utf-8\r\n".data
        ++ "Content-Length: ".data := by
    decide
  have hpost2 : RESPONSE_HEADER_POST = "\r\n".data ++ "Connection: close\r\n\r\n".data := by
    decide
  have hpost3 : RESPONSE_HEADER_POST
      = "\r\n".data ++ "Connection: close\r\n".data ++ "\r\n".data := by
    decide
  refine ⟨send_http_response_eq h0 h1, ?_, ?_, ?_, ?_, decimalVal_natDecimal _⟩
  · refine ⟨"Server: snooze\r\nContent-Type: text/html; charset=utf-8\r\nContent-Length: ".data
      ++ natDecimal msg.length ++ RESPONSE_HEADER_POST ++ msg, ?_⟩
    rw [hpre]
    simp [List.append_assoc]
  · refine ⟨"HTTP/1.1 200 OK\r\nServer: snooze\r\nContent-Type: text/html; charset=utf-8\r\n".data,
      "Connection: close\r\n\r\n".data ++ msg, ?_⟩
    rw [hpre2, hpost2]
    simp [List.append_assoc]
  · refine ⟨RESPONSE_HEADER_PRE ++ natDecimal msg.length ++ "\r\n".data,
      "\r\n".data ++ msg, ?_⟩
    rw [hpost3]
    simp [List.append_assoc]
  · rw [show RESPONSE_HEADER_POST = "\r\nConnection: close\r\n".data ++ "\r\n".data from by decide]
    simp [List.append_assoc]

/-- Witness for C4 at the default message (19 bytes). -/
theorem response_framing_witness :
    send_http_response DEFAULT_MESSAGE
      = some (RESPONSE_HEADER_PRE ++ natDecimal DEFAULT_MESSAGE.length
          ++ RESPONSE_HEADER_POST ++ DEFAULT_MESSAGE)
    ∧ "HTTP/1.1 200 OK\r\n".data
        <+: RESPONSE_HEADER_PRE ++ natDecimal DEFAULT_MESSAGE.length
          ++ RESPONSE_HEADER_POST ++ DEFAULT_MESSAGE
    ∧ ("Content-Length: ".data ++ natDecimal DEFAULT_MESSAGE.length ++ "\r\n".data)
        <:+: RESPONSE_HEADER_PRE ++ natDecimal DEFAULT_MESSAGE.length
          ++ RESPONSE_HEADER_POST ++ DEFAULT_MESSAGE
    ∧ "Connection: close\r\n".data
        <:+: RESPONSE_HEADER_PRE ++ natDecimal DEFAULT_MESSAGE.length
          ++ RESPONSE_HEADER_POST ++ DEFAULT_MESSAGE
    ∧ RESPONSE_HEADER_PRE ++ natDecimal DEFAULT_MESSAGE.length
          ++ RESPONSE_HEADER_POST ++ DEFAULT_MESSAGE
        = (RESPONSE_HEADER_PRE ++ natDecimal DEFAULT_MESSAGE.length
            ++ "\r\nConnection: close\r\n".data) ++ "\r\n".data ++ DEFAULT_MESSAGE
    ∧ decimalVal (natDecimal DEFAULT_MESSAGE.length) = DEFAULT_MESSAGE.length :=
  response_framing DEFAULT_MESSAGE (by decide) (by decide)

/-- C10: every response the builder actually sends also contains a
`Server: snooze` header and a `Content-Type: text/html; charset=utf-8`
header, beyond the items listed by the spec. -/
theorem response_extra_headers (msg r : Bytes) (h : send_http_response msg = some r) :
    "Server: snooze\r\n".data <:+: r
    ∧ "Content-Type: text/html; charset=utf-8\r\n".data <:+: r := by
  have hr : r = RESPONSE_HEADER_PRE ++ natDecimal (msg.takeWhile (fun c => c != '\x00')).length
      ++ RESPONSE_HEADER_POST ++ (msg.takeWhile (fun c => c != '\x00')) := by
    revert h
    simp only [send_http_response]
    split_ifs with hlen
    · intro h
      exact absurd h (by simp)
    · intro h
      rw [← Option.some_inj.1 h]
  subst hr
  constructor
  · refine ⟨"HTTP/1.1 200 OK\r\n".data,
      "Content-Type: text/html; charset=utf-8\r\nContent-Length: ".data
        ++ natDecimal (msg.takeWhile (fun c => c != '\x00')).length
        ++ RESPONSE_HEADER_POST ++ (msg.takeWhile (fun c => c != '\x00')), ?_⟩
    rw [show RESPONSE_HEADER_PRE = "HTTP/1.1 200 OK\r\n".data ++ "Server: snooze\r\n".data
        ++ "Content-Type: text/html; charset=utf-8\r\nContent-Length: ".data from by decide]
    simp [List.append_assoc]
  · refine ⟨"HTTP/1.1 200 OK\r\nServer: snooze\r\n".data,
      "Content-Length: ".data
        ++ natDecimal (msg.takeWhile (fun c => c != '\x00')).length
        ++ RESPONSE_HEADER_POST ++ (msg.takeWhile (fun c => c != '\x00')), ?_⟩
    rw [show RESPONSE_HEADER_PRE = "HTTP/1.1 200 OK\r\nServer: snooze\r\n".data
        ++ "Content-Type: text/html; charset=utf-8\r\n".data
        ++ "Content-Length: ".data from by decide]
    simp [List.append_assoc]

/-- Witness for C10 at the default message. -/
theorem response_extra_headers_witness :
    "Server: snooze\r\n".data
      <:+: RESPONSE_HEADER_PRE ++ natDecimal DEFAULT_MESSAGE.length
        ++ RESPONSE_HEADER_POST ++ DEFAULT_MESSAGE
    ∧ "Content-Type: text/html; charset=utf-8\r\n".data
      <:+: RESPONSE_HEADER_PRE ++ natDecimal DEFAULT_MESSAGE.length
        ++ RESPONSE_HEADER_POST ++ DEFAULT_MESSAGE := by
  have h := response_extra_headers DEFAULT_MESSAGE
    (RESPONSE_HEADER_PRE ++ natDecimal DEFAULT_MESSAGE.length
      ++ RESPONSE_HEADER_POST ++ DEFAULT_MESSAGE) (by decide)
  exact h

/-- Counterexample to C5 as frozen: when the peer closes after sending
zero bytes, the read loop returns an empty buffer, but `main` still
parses it and calls `handle_request`, which writes the full
default-message response — a response write is attempted. -/
theorem empty_read_counterexample :
    (read_loop [RecvEvent.closed] []).1 = []
    ∧ (handle_connection [RecvEvent.closed] DEFAULT_MESSAGE).2.2
        = some (RESPONSE_HEADER_PRE ++ natDecimal 19 ++ RESPONSE_HEADER_POST ++ DEFAULT_MESSAGE)
    ∧ (handle_connection [RecvEvent.closed] DEFAULT_MESSAGE).2.2 ≠ none := by
  decide

/-- C5 (amended): a connection whose first read returns zero bytes
yields the fully defaulted request, no delay, and the default-message
response is written before the connection is closed; no crash occurs
(the pipeline is total). -/
theorem empty_read_default_response (d : Bytes) (h0 : '\x00' ∉ d) (h1 : d.length ≤ 10000) :
    handle_connection [RecvEvent.closed] d
      = ({ method := "GET".data, path := "/".data, user_agent := "unknown".data,
           additional_headers := [], snooze_seconds := 0 }, 0,
         some (RESPONSE_HEADER_PRE ++ natDecimal d.length ++ RESPONSE_HEADER_POST ++ d)) := by
  simp only [handle_connection]
  rw [show extract_request_info (read_loop [RecvEvent.closed] []).1
      = { method := "GET".data, path := "/".data, user_agent := "unknown".data,
          additional_headers := [], snooze_seconds := 0 } from by decide]
  simp only [handle_request]
  rw [if_neg (by decide), send_http_response_eq h0 h1]

/-- Witness for C5's amended theorem at the default configuration. -/
theorem empty_read_default_response_witness :
    handle_connection [RecvEvent.closed] DEFAULT_MESSAGE
      = ({ method := "GET".data, path := "/".data, user_agent := "unknown".data,
           additional_headers := [], snooze_seconds := 0 }, 0,
         some (RESPONSE_HEADER_PRE ++ natDecimal DEFAULT_MESSAGE.length
           ++ RESPONSE_HEADER_POST ++ DEFAULT_MESSAGE)) :=
  empty_read_default_response DEFAULT_MESSAGE (by decide) (by decide)

/-- Counterexample to C6 as frozen: a 16-byte request method (one byte
over the 15 usable bytes of `method[16]`) is not stored truncated — it
is dropped entirely and the field falls back to the default `GET`,
which is neither the oversized method nor any leading copy of it. -/
theorem oversized_method_counterexample :
    (extract_request_info "AAAAAAAAAAAAAAAA / HTTP/1.1\r\n\r\n".data).method = "GET".data
    ∧ listStartsWith "AAAAAAAAAAAAAAAA".data
        (extract_request_info "AAAAAAAAAAAAAAAA / HTTP/1.1\r\n\r\n".data).method = false
    ∧ (extract_request_info "AAAAAAAAAAAAAAAA / HTTP/1.1\r\n\r\n".data).method
        ≠ "AAAAAAAAAAAAAAA".data := by
  decide

theorem parseRequestLine_bounds {line : Bytes} {acc : ParseAcc}
    (hm : acc.method.length < 16) (hp : acc.path.length < 128) :
    (parseRequestLine line acc).method.length < 16
    ∧ (parseRequestLine line acc).path.length < 128
    ∧ (parseRequestLine line acc).user_agent = acc.user_agent := by
  simp only [parseRequestLine]
  split_ifs <;> simp_all

theorem parseHeaderLine_bounds {line : Bytes} {acc : ParseAcc}
    (hu : acc.user_agent.length < 128) :
    (parseHeaderLine line acc).1.user_agent.length < 128
    ∧ (parseHeaderLine line acc).1.method = acc.method
    ∧ (parseHeaderLine line acc).1.path = acc.path := by
  simp only [parseHeaderLine]
  split_ifs <;> simp_all

theorem processLines_bounds : ∀ (lines : List Bytes) (isFirst : Bool) (acc : ParseAcc),
    acc.method.length < 16 → acc.path.length < 128 → acc.user_agent.length < 128 →
    (processLines lines isFirst acc).method.length < 16
    ∧ (processLines lines isFirst acc).path.length < 128
    ∧ (processLines lines isFirst acc).user_agent.length < 128
  | [], _, acc, hm, hp, hu => ⟨hm, hp, hu⟩
  | line :: rest, isFirst, acc, hm, hp, hu => by
      simp only [processLines]
      split_ifs with h1 h2 h3
      · exact ⟨hm, hp, hu⟩
      · obtain ⟨m1, p1, u1⟩ := @parseRequestLine_bounds line acc hm hp
        exact processLines_bounds rest false _ m1 p1 (by rw [u1]; exact hu)
      · obtain ⟨u1, m1, p1⟩ := @parseHeaderLine_bounds line acc hu
        exact ⟨by rw [m1]; exact hm, by rw [p1]; exact hp, u1⟩
      · obtain ⟨u1, m1, p1⟩ := @parseHeaderLine_bounds line acc hu
        exact processLines_bounds rest false _ (by rw [m1]; exact hm) (by rw [p1]; exact hp) u1

/-- C6 (amended): every parsed field respects its fixed buffer capacity
(`method[16]`, `path[128]`, `user_agent[128]`,
`additional_headers[1536]`, each keeping one byte for the terminating
NUL), for any raw input whatsoever — the parser never overflows and,
being total, never crashes or raises an error.  A value longer than its
destination is not stored truncated: it is dropped and the field keeps
its default, as the concrete oversized-method case shows. -/
theorem parse_capacity_bounds :
    (∀ reqbuf : Bytes,
      (extract_request_info reqbuf).method.length < MAX_METHOD_SIZE
      ∧ (extract_request_info reqbuf).path.length < MAX_PATH_SIZE
      ∧ (extract_request_info reqbuf).user_agent.length < MAX_AGENT_SIZE
      ∧ (extract_request_info reqbuf).additional_headers.length < MAX_HEADERS_SIZE)
    ∧ (extract_request_info "AAAAAAAAAAAAAAAA / HTTP/1.1\r\n\r\n".data).method = "GET".data := by
  constructor
  · intro reqbuf
    obtain ⟨hm, hp, hu⟩ := processLines_bounds
      (splitCRLF (reqbuf.takeWhile (fun c => c != '\x00'))) true
      { method := [], path := [], user_agent := [], temp := [], jsonPos := 0 }
      (by decide) (by decide) (by decide)
    simp only [extract_request_info, parse_headers, MAX_METHOD_SIZE, MAX_PATH_SIZE,
      MAX_AGENT_SIZE, MAX_HEADERS_SIZE]
    refine ⟨?_, ?_, ?_, ?_⟩
    · split_ifs with h
      · decide
      · exact hm
    · split_ifs with h
      · decide
      · exact hp
    · split_ifs with h
      · decide
      · exact hu
    · rw [List.length_take]
      omega
  · decide

theorem read_loop_len : ∀ (events : List RecvEvent) (buf : Bytes),
    buf.length ≤ MAX_REQ_SIZE - 1 → (read_loop events buf).1.length ≤ MAX_REQ_SIZE - 1
  | [], _, h => h
  | ev :: rest, buf, h => by
      cases ev with
      | closed => exact h
      | eintr => exact h
      | err => exact h
      | data bytes =>
          have hchunk : (bytes.take (MAX_REQ_SIZE - 1 - buf.length)).length
              ≤ MAX_REQ_SIZE - 1 - buf.length := by
            rw [List.length_take]
            omega
          have hbuf1 : (buf ++ bytes.take (MAX_REQ_SIZE - 1 - buf.length)).length
              ≤ MAX_REQ_SIZE - 1 := by
            rw [List.length_append]
            omega
          simp only [read_loop]
          split_ifs with h1 h2 h3
          · exact h
          · exact hbuf1
          · exact hbuf1
          · exact read_loop_len rest _ hbuf1

theorem read_loop_count : ∀ (events : List RecvEvent) (buf : Bytes),
    (read_loop events buf).2 ≤ (MAX_REQ_SIZE - 1 - buf.length) + 1
  | [], buf => by simp [read_loop]
  | ev :: rest, buf => by
      cases ev with
      | closed => simp [read_loop]
      | eintr => simp [read_loop]
      | err => simp [read_loop]
      | data bytes =>
          simp only [read_loop]
          split_ifs with h1 h2 h3
          · simp
          · simp
          · simp
          · have ih := read_loop_count rest (buf ++ bytes.take (MAX_REQ_SIZE - 1 - buf.length))
            have hne : bytes.take (MAX_REQ_SIZE - 1 - buf.length) ≠ [] := h1
            have hge1 : 1 ≤ (bytes.take (MAX_REQ_SIZE - 1 - buf.length)).length := by
              cases hc : bytes.take (MAX_REQ_SIZE - 1 - buf.length) with
              | nil => exact absurd hc hne
              | cons x l => simp
            rw [List.length_append] at ih h3
            simp only [MAX_REQ_SIZE] at *
            omega

/-- Counterexample to C7 as frozen: a read failing with EINTR is not
retried — the read loop stops there (consuming exactly one `recv`
outcome) and returns an empty buffer, even though a complete request
was available on the very next read, as the second conjunct shows. -/
theorem eintr_counterexample :
    read_loop [RecvEvent.eintr, RecvEvent.data "GET / HTTP/1.1\r\n\r\n".data] [] = ([], 1)
    ∧ read_loop [RecvEvent.data "GET / HTTP/1.1\r\n\r\n".data] []
        = ("GET / HTTP/1.1\r\n\r\n".data, 1) := by
  decide

/-- C7 (amended): the request reader treats an interrupted read
(EINTR) like any other read failure — it ends the read immediately with
whatever was accumulated, with no retry; and it never blocks
indefinitely when the peer never sends CRLFCRLF: the buffer capacity is
the hard backstop, so the buffer never exceeds `MAX_REQ_SIZE - 1` bytes
and at most `MAX_REQ_SIZE` reads are ever issued, whatever the network
delivers. -/
theorem read_loop_backstop :
    (∀ events : List RecvEvent, read_loop (RecvEvent.eintr :: events) [] = ([], 1))
    ∧ (∀ events : List RecvEvent, (read_loop events []).1.length ≤ MAX_REQ_SIZE - 1)
    ∧ (∀ events : List RecvEvent, (read_loop events []).2 ≤ MAX_REQ_SIZE) := by
  refine ⟨fun events => rfl, fun events => read_loop_len events [] (by decide),
    fun events => ?_⟩
  have h := read_loop_count events []
  simp only [MAX_REQ_SIZE, List.length_nil] at *
  omega

/-- C8: after parsing any raw buffer — empty, truncated, or malformed —
every field of the request has a defined value: `method`, `path` and
`user_agent` are never empty, and on an empty (or unparsable) buffer
they are exactly the documented defaults `GET`, `/`, `unknown`, with no
other headers and `snooze_seconds = 0`; the model being a total
function, downstream code can never observe partial or uninitialized
state. -/
theorem request_fields_defined :
    (∀ reqbuf : Bytes,
      (extract_request_info reqbuf).method ≠ []
      ∧ (extract_request_info reqbuf).path ≠ []
      ∧ (extract_request_info reqbuf).user_agent ≠ [])
    ∧ extract_request_info []
      = { method := "GET".data, path := "/".data, user_agent := "unknown".data,
          additional_headers := [], snooze_seconds := 0 } := by
  constructor
  · intro reqbuf
    simp only [extract_request_info, parse_headers]
    refine ⟨?_, ?_, ?_⟩
    · split_ifs with h
      · decide
      · exact h
    · split_ifs with h
      · decide
      · exact h
    · split_ifs with h
      · decide
      · exact h
  · decide

/-- C9: `parse_headers` reads its buffer as a NUL-terminated C string
(`strlen`): everything after a NUL byte is invisible to it, so two
buffers that agree up to an embedded NUL parse identically no matter
what follows — even if the bytes after the NUL hold the request line,
headers, or the header terminator. -/
theorem parse_stops_at_nul (req : http_request_t) (a b c : Bytes) :
    parse_headers (a ++ '\x00' :: b) req = parse_headers (a ++ '\x00' :: c) req := by
  simp only [parse_headers]
  rw [takeWhile_stop '\x00' (by decide) a b c]
